import Mathlib

/-!
# Walkie provably-fair path game: shallow embedding and verification

This file embeds the map-generation / verification core of the Walkie game:

* the Node backend's map generator and connectivity checker
  (`getGridConfig`, `getStartTiles`, `getFinishTiles`, `getAdjacent4Way`,
  `hasPath`, `selectStartAndFinish`, `placeBombsWithNonce`, `getRewardCount`,
  `isRewardTile`, `getTileReward`), and
* the `Bombomb` Solidity contract's game-state functions
  (`commitSaltHash`, `revealTile`, `completeGame`, `_calculateBombs`,
  `_calculateReward`, `_isAdjacent4Way`).

Modelling conventions:

* Byte strings are `List Nat` with entries < 256; `abi.encodePacked` /
  `ethers.solidityPacked` become explicit big-endian byte concatenation
  (`toBytesBE`).  Both sources pack the same field sequences with the same
  solidity types, so they share the packing helpers below.
* `keccak256` is an abstract parameter `h : List Nat → Nat`; its 32-byte
  output is modelled by reducing `h` modulo `2 ^ 256` (`keccak`).
  Every theorem quantifies over `h`, and counterexamples instantiate `h`
  with explicit functions.
* Machine integers are `Nat` with explicit `% 2 ^ w` exactly where the
  source can truncate (`uint8` casts in `_calculateBombs`, the `uint64`
  shift in the bomb bitmap).  Solidity 0.8 checked multiplication in
  `_calculateReward` is modelled by an `Option` guard.
* A Solidity `require` failure (transaction revert, no state mutation) is
  `none`; success returns `some` of the updated state.
* The backend's BFS (`hasPath`) is modelled as a fuelled monotone
  reachability iteration that stops at a fixpoint, the standard shallow
  embedding of a work-list BFS: `reachStep` adds every non-bomb neighbour
  of the visited set, and `w * w` rounds bound the BFS depth.
-/

/-- Big-endian fixed-width byte encoding: `n` bytes of `v` (the value is
taken mod `256 ^ n`, exactly as solidity packing of `uintN` does). -/
def toBytesBE : Nat → Nat → List Nat
  | 0, _ => []
  | n + 1, v => toBytesBE n (v / 256) ++ [v % 256]

/-- Big-endian byte decoding (used only to build concrete injective hash
functions for witnesses). -/
def fromBytesBE (l : List Nat) : Nat :=
  l.foldl (fun acc b => acc * 256 + b) 0

/-- UTF-8 bytes of an ASCII string literal (all tags used are ASCII). -/
def strBytes (s : String) : List Nat :=
  s.toList.map Char.toNat

/-- The abstract 256-bit hash: an arbitrary function on byte strings,
reduced to its 32-byte (256-bit) output. -/
def keccak (h : List Nat → Nat) (msg : List Nat) : Nat :=
  h msg % 2 ^ 256

/-- `VERSION = keccak256("WALKIE_V5_PROVABLY_FAIR")`, identical in the
backend (`ethers.keccak256(ethers.toUtf8Bytes(...))`) and the contract
(`keccak256("WALKIE_V5_PROVABLY_FAIR")`). -/
def versionTag (h : List Nat → Nat) : Nat :=
  keccak h (strBytes "WALKIE_V5_PROVABLY_FAIR")

/-! ## Packed hash pre-images

Each derivation hashes `abi.encodePacked` of the same typed fields in the
backend and in the contract, so a single packing definition per domain tag
is the faithful embedding of both call sites. -/

/-- `encodePacked(finalSeed (bytes32), gameId (uint64), "start", VERSION)`. -/
def packStart (h : List Nat → Nat) (seed gameId : Nat) : List Nat :=
  toBytesBE 32 seed ++ toBytesBE 8 gameId ++ strBytes "start" ++ toBytesBE 32 (versionTag h)

/-- `encodePacked(finalSeed, gameId, "finish", VERSION)`. -/
def packFinish (h : List Nat → Nat) (seed gameId : Nat) : List Nat :=
  toBytesBE 32 seed ++ toBytesBE 8 gameId ++ strBytes "finish" ++ toBytesBE 32 (versionTag h)

/-- `encodePacked(finalSeed, gameId, "bomb", nonce (uint8), i (uint8), VERSION)`. -/
def packBomb (h : List Nat → Nat) (seed gameId nonce i : Nat) : List Nat :=
  toBytesBE 32 seed ++ toBytesBE 8 gameId ++ strBytes "bomb" ++
    toBytesBE 1 nonce ++ toBytesBE 1 i ++ toBytesBE 32 (versionTag h)

/-- `encodePacked(finalSeed, gameId, "rewardCount", VERSION)`. -/
def packRewardCount (h : List Nat → Nat) (seed gameId : Nat) : List Nat :=
  toBytesBE 32 seed ++ toBytesBE 8 gameId ++ strBytes "rewardCount" ++ toBytesBE 32 (versionTag h)

/-- `encodePacked(finalSeed, gameId, "rewardPos", i (uint8), VERSION)`. -/
def packRewardPos (h : List Nat → Nat) (seed gameId i : Nat) : List Nat :=
  toBytesBE 32 seed ++ toBytesBE 8 gameId ++ strBytes "rewardPos" ++
    toBytesBE 1 i ++ toBytesBE 32 (versionTag h)

/-- `encodePacked(finalSeed, gameId, "reward", tileIndex (uint8), VERSION)`. -/
def packReward (h : List Nat → Nat) (seed gameId tileIndex : Nat) : List Nat :=
  toBytesBE 32 seed ++ toBytesBE 8 gameId ++ strBytes "reward" ++
    toBytesBE 1 tileIndex ++ toBytesBE 32 (versionTag h)

/-- `encodePacked(pythSeed (bytes32), backendSalt (bytes32), gameId (uint64), VERSION)`,
the final-seed pre-image (backend `calculateFinalSeed` and contract
`completeGame` agree on it). -/
def packFinalSeed (h : List Nat → Nat) (pythSeed backendSalt gameId : Nat) : List Nat :=
  toBytesBE 32 pythSeed ++ toBytesBE 32 backendSalt ++ toBytesBE 8 gameId ++
    toBytesBE 32 (versionTag h)

/-! ## Grid configuration (backend `GRID_CONFIG`, `getGridConfig`) -/

/-- `GRID_CONFIG[gridWidth].size`, with the JS `|| GRID_CONFIG[5]` default. -/
def gridSizeCfg (w : Nat) : Nat :=
  if w = 5 then 25 else if w = 6 then 36 else if w = 7 then 49 else 25

/-- `GRID_CONFIG[gridWidth].bombs`, with the JS default. -/
def bombCountCfg (w : Nat) : Nat :=
  if w = 5 then 3 else if w = 6 then 5 else if w = 7 then 7 else 3

/-- `GRID_CONFIG[gridWidth].minRewards`, with the JS default. -/
def minRewardsCfg (w : Nat) : Nat :=
  if w = 5 then 5 else if w = 6 then 7 else if w = 7 then 10 else 5

/-- `GRID_CONFIG[gridWidth].maxRewards`, with the JS default. -/
def maxRewardsCfg (w : Nat) : Nat :=
  if w = 5 then 8 else if w = 6 then 10 else if w = 7 then 14 else 8

/-- Backend `getStartTiles`: the bottom row `[w²-w, …, w²-1]`. -/
def getStartTiles (w : Nat) : List Nat :=
  (List.range w).map (fun i => w * w - w + i)

/-- Backend `getFinishTiles`: the top row `[0, …, w-1]`. -/
def getFinishTiles (w : Nat) : List Nat :=
  List.range w

/-! ## Adjacency and connectivity (backend) -/

/-- Backend `getAdjacent4Way`: up, down, left, right neighbours in push order. -/
def getAdjacent4Way (tile w : Nat) : List Nat :=
  let x := tile % w
  let y := tile / w
  (if y > 0 then [tile - w] else []) ++
  (if y < w - 1 then [tile + w] else []) ++
  (if x > 0 then [tile - 1] else []) ++
  (if x < w - 1 then [tile + 1] else [])

/-- Backend `isAdjacent4Way`. -/
def isAdjacent4Way (a b w : Nat) : Bool :=
  (getAdjacent4Way a w).contains b

/-- One BFS expansion round: append every unvisited non-bomb neighbour of
the visited set (the accumulator plays the role of `visited`/`queue`
union in the JS BFS). -/
def reachStep (bombs : List Nat) (w : Nat) (visited : List Nat) : List Nat :=
  visited.foldl
    (fun acc t =>
      acc ++ (getAdjacent4Way t w).filter (fun n => !acc.contains n && !bombs.contains n))
    visited

/-- Fuelled iteration of `reachStep` to its fixpoint (the BFS terminates
when the work list is exhausted; `reachStep` only appends, so equal
lengths mean the fixpoint is reached). -/
def reachAux (bombs : List Nat) (w : Nat) : Nat → List Nat → List Nat
  | 0, visited => visited
  | fuel + 1, visited =>
    let next := reachStep bombs w visited
    if next.length = visited.length then visited else reachAux bombs w fuel next

/-- Backend `hasPath`: BFS from `start`, false immediately if `start` or
`finish` is a bomb; `w * w` rounds bound the BFS depth. -/
def hasPath (start finish : Nat) (bombs : List Nat) (w : Nat) : Bool :=
  if bombs.contains start || bombs.contains finish then false
  else (reachAux bombs w (w * w) [start]).contains finish

/-! ## Start/finish selection -/

/-- Backend `selectStartAndFinish`:
`startTiles[hash(seed, gameId, "start", VERSION) mod startTiles.length]` and
`finishTiles[hash(seed, gameId, "finish", VERSION) mod finishTiles.length]`. -/
def selectStartAndFinish (h : List Nat → Nat) (seed gameId w : Nat) : Nat × Nat :=
  let startTiles := getStartTiles w
  let finishTiles := getFinishTiles w
  (startTiles.getD (keccak h (packStart h seed gameId) % startTiles.length) 0,
   finishTiles.getD (keccak h (packFinish h seed gameId) % finishTiles.length) 0)

/-- Contract `completeGame`'s recomputed start tile:
`bottomRowStart + uint8(uint256(startHash) % gridWidth)`. -/
def expectedStartSol (h : List Nat → Nat) (finalSeed gameId w : Nat) : Nat :=
  w * w - w + keccak h (packStart h finalSeed gameId) % w

/-- Contract `completeGame`'s recomputed finish tile:
`uint8(uint256(finishHash) % gridWidth)`. -/
def expectedFinishSol (h : List Nat → Nat) (finalSeed gameId w : Nat) : Nat :=
  keccak h (packFinish h finalSeed gameId) % w

/-! ## Trap placement (backend `placeBombsWithNonce`) -/

/-- Simultaneous swap `[l[i], l[j]] = [l[j], l[i]]` on a list. -/
def swapList (l : List Nat) (i j : Nat) : List Nat :=
  (l.set i (l.getD j 0)).set j (l.getD i 0)

/-- All tiles except `startTile` and `finishTile`, in index order (the
`available` array built by both the backend and `_calculateBombs`). -/
def availInit (total start finish : Nat) : List Nat :=
  (List.range total).filter (fun i => i != start && i != finish)

/-- The backend's seeded partial Fisher-Yates draw loop: at draw `i` the
pivot is `i + hash(seed, gameId, "bomb", nonce, i, VERSION) mod (len - i)`;
after the swap, `available[i]` is added to the bomb set.  Returns the list
of drawn bombs (in draw order); `fuel` counts the remaining draws. -/
def bombLoopJS (h : List Nat → Nat) (seed gameId nonce : Nat) :
    Nat → Nat → List Nat → List Nat
  | 0, _, _ => []
  | fuel + 1, i, avail =>
    let hv := keccak h (packBomb h seed gameId nonce i)
    let j := i + hv % (avail.length - i)
    let avail' := swapList avail i j
    avail'.getD i 0 :: bombLoopJS h seed gameId nonce fuel (i + 1) avail'

/-- One trap-placement attempt of `placeBombsWithNonce` at a given nonce:
the bomb set drawn by the partial Fisher-Yates shuffle. -/
def bombAttempt (h : List Nat → Nat) (seed gameId start finish w nonce : Nat) : List Nat :=
  bombLoopJS h seed gameId nonce (bombCountCfg w) 0 (availInit (gridSizeCfg w) start finish)

/-- The hardcoded fallback the backend returns when no attempt succeeds:
`{ bombSet: new Set([5, 9, 15]), nonce: 0 }`. -/
def bombFallback : List Nat × Nat := ([5, 9, 15], 0)

/-- The `for (nonce = 0; nonce < 100; ...)` retry loop of
`placeBombsWithNonce`: accept the first nonce whose attempt passes
`hasPath`, else fall through to the hardcoded fallback. -/
def placeBombsLoop (h : List Nat → Nat) (seed gameId start finish w : Nat) :
    Nat → Nat → List Nat × Nat
  | 0, _ => bombFallback
  | fuel + 1, nonce =>
    let bombs := bombAttempt h seed gameId start finish w nonce
    if hasPath start finish bombs w then (bombs, nonce)
    else placeBombsLoop h seed gameId start finish w fuel (nonce + 1)

/-- Backend `placeBombsWithNonce` (`maxAttempts = 100`). -/
def placeBombsWithNonce (h : List Nat → Nat) (seed gameId start finish w : Nat) :
    List Nat × Nat :=
  placeBombsLoop h seed gameId start finish w 100 0

/-! ## Rewards (backend) -/

/-- Backend `getRewardCount`:
`minRewards + hash(seed, gameId, "rewardCount", VERSION) mod (max - min + 1)`. -/
def getRewardCount (h : List Nat → Nat) (seed gameId w : Nat) : Nat :=
  minRewardsCfg w +
    keccak h (packRewardCount h seed gameId) % (maxRewardsCfg w - minRewardsCfg w + 1)

/-- The reward-position partial Fisher-Yates loop of `isRewardTile`
(domain tag `"rewardPos"`); returns the shuffled array. -/
def rewardShuffle (h : List Nat → Nat) (seed gameId : Nat) :
    Nat → Nat → List Nat → List Nat
  | 0, _, avail => avail
  | fuel + 1, i, avail =>
    let hv := keccak h (packRewardPos h seed gameId i)
    let j := i + hv % (avail.length - i)
    rewardShuffle h seed gameId fuel (i + 1) (swapList avail i j)

/-- Backend `isRewardTile`: start, finish and bombs never carry rewards;
otherwise the tile is a reward tile iff it lands in the first
`actualRewardCount` slots of the seeded shuffle of the remaining tiles. -/
def isRewardTile (h : List Nat → Nat) (seed gameId : Nat) (bombSet : List Nat)
    (start finish tileIndex w : Nat) : Bool :=
  if tileIndex == start || tileIndex == finish || bombSet.contains tileIndex then false
  else
    let size := gridSizeCfg w
    let rewardCount := getRewardCount h seed gameId w
    let avail := (List.range size).filter
      (fun i => i != start && i != finish && !bombSet.contains i)
    let actual := min rewardCount avail.length
    let shuffled := rewardShuffle h seed gameId actual 0 avail
    (shuffled.take actual).contains tileIndex

/-- Reward tier basis points `REWARD_TIERS` (backend and contract agree). -/
def rewardTiers : List Nat := [1000, 2000, 5000, 10000, 20000, 50000, 100000]

/-- Cumulative tier thresholds `TIER_THRESHOLDS` (backend and contract agree). -/
def tierThresholds : List Nat := [3500, 6000, 8000, 9200, 9700, 9950, 10000]

/-- Backend `getTileReward`: `roll = hash(seed, gameId, "reward", tileIndex,
VERSION) mod 10000`; first tier whose threshold exceeds the roll wins;
`betAmount * tierBp / 10000` in exact BigInt arithmetic. -/
def getTileReward (h : List Nat → Nat) (seed gameId betAmount tileIndex : Nat) : Nat :=
  let roll := keccak h (packReward h seed gameId tileIndex) % 10000
  match (tierThresholds.zip rewardTiers).find? (fun p => roll < p.1) with
  | some p => betAmount * p.2 / 10000
  | none => betAmount * 100000 / 10000

/-! ## Contract (`Bombomb`) pure calculation functions -/

/-- Contract `_getBombCount`; `none` models the `revert("Invalid grid size")`. -/
def bombCountSol (w : Nat) : Option Nat :=
  if w = 5 then some 3 else if w = 6 then some 5 else if w = 7 then some 7 else none

/-- The bitmap-accumulating Fisher-Yates loop of `_calculateBombs`.
`remaining` is the `uint8(available.length - i)` cast and the shift
`uint64(1) << available[i]` is reduced mod `2 ^ 64`, as in the source. -/
def bombLoopSol (h : List Nat → Nat) (seed gameId nonce : Nat) :
    Nat → Nat → List Nat → Nat → Nat
  | 0, _, _, bitmap => bitmap
  | fuel + 1, i, avail, bitmap =>
    let hv := keccak h (packBomb h seed gameId nonce i)
    let remaining := (avail.length - i) % 256
    let j := i + hv % remaining
    let avail' := swapList avail i j
    bombLoopSol h seed gameId nonce fuel (i + 1) avail'
      (bitmap ||| 2 ^ (avail'.getD i 0) % 2 ^ 64)

/-- Contract `_calculateBombs`: the `uint64` bomb bitmap recomputed from
the final seed and the recorded nonce. -/
def calculateBombsSol (h : List Nat → Nat)
    (finalSeed gameId start finish w bombCount nonce : Nat) : Nat :=
  bombLoopSol h finalSeed gameId nonce bombCount 0 (availInit (w * w) start finish) 0

/-- Contract `_calculateReward`.  Solidity 0.8 checked multiplication
reverts on `uint256` overflow, hence the `Option` guard. -/
def calculateRewardSol (h : List Nat → Nat)
    (finalSeed gameId tileIndex betAmount : Nat) : Option Nat :=
  let roll := keccak h (packReward h finalSeed gameId tileIndex) % 10000
  match (tierThresholds.zip rewardTiers).find? (fun p => roll < p.1) with
  | some p => if betAmount * p.2 < 2 ^ 256 then some (betAmount * p.2 / 10000) else none
  | none => if betAmount * 100000 < 2 ^ 256 then some (betAmount * 100000 / 10000) else none

/-- Contract `_isAdjacent4Way` (int8 coordinate differences). -/
def isAdjacent4WaySol (a b w : Nat) : Bool :=
  let total := w * w
  if a ≥ total || b ≥ total then false
  else
    let dx : Int := (b % w : Nat) - (a % w : Nat)
    let dy : Int := (b / w : Nat) - (a / w : Nat)
    (dx == 0 && (dy == 1 || dy == -1)) || (dy == 0 && (dx == 1 || dx == -1))

/-! ## Contract state -/

/-- Contract `GamePhase`. -/
inductive Phase where
  | NotStarted
  | WaitingVRF
  | Active
  | Completed
deriving DecidableEq

/-- A `TileReveal` struct pushed by `revealTile` and replayed by
`completeGame`. -/
structure TileReveal where
  tileIndex : Nat
  tileType : Nat
  reward : Nat
deriving DecidableEq

/-- The per-game contract storage touched by `revealTile` / `completeGame`:
the `Game` struct fields plus the per-game mappings (`gameGridSize`,
`startTile`, `finishTile`, `foxPosition`, `revealedTiles`, `hitBombAt`,
`gameReveals`) keyed by the same `gameId`, flattened into one record. -/
structure GameFull where
  player : Nat
  betAmount : Nat
  revealedCount : Nat
  collectedReward : Nat
  backendSaltHash : Nat
  pythSeed : Nat
  phase : Phase
  won : Bool
  payout : Nat
  gridSize : Nat
  startTile : Nat
  finishTile : Nat
  foxPosition : Nat
  revealedTiles : Nat
  hitBombAt : Nat
  reveals : List TileReveal
deriving DecidableEq

/-- Coordinator state touched by `commitSaltHash`: the `pendingSaltHash`
and `playerActiveGame` mappings (addresses as `Nat`, `0` the zero
address / the cleared slot). -/
structure CoordState where
  pendingSaltHash : Nat → Nat
  playerActiveGame : Nat → Nat

/-- Contract `commitSaltHash`: requires a nonzero player and salt hash and
no active game for the player, then **overwrites** `pendingSaltHash[player]`
(the source comments: allow overwriting pending salt for retry scenarios). -/
def commitSaltHashSol (s : CoordState) (player saltHash : Nat) : Option CoordState :=
  if player = 0 then none
  else if saltHash = 0 then none
  else if s.playerActiveGame player ≠ 0 then none
  else some { s with pendingSaltHash := fun p => if p = player then saltHash else s.pendingSaltHash p }

/-- Contract `revealTile`: movement legality checks in source order
(ownership, phase, bounds, already revealed, tile type, 4-way adjacency,
no backward row), then the state update; `none` is a revert, leaving all
storage unchanged. -/
def revealTileSol (g : GameFull) (player tileIndex tileType reward : Nat) :
    Option GameFull :=
  if g.player ≠ player then none
  else if g.phase ≠ Phase.Active then none
  else
    let w := g.gridSize
    if ¬ tileIndex < w * w then none
    else if g.revealedTiles &&& 1 <<< tileIndex ≠ 0 then none
    else if ¬ tileType ≤ 2 then none
    else if ¬ isAdjacent4WaySol g.foxPosition tileIndex w then none
    else if tileIndex / w > g.foxPosition / w then none
    else
      let g1 := { g with
        reveals := g.reveals ++ [⟨tileIndex, tileType, reward⟩],
        revealedTiles := g.revealedTiles ||| 1 <<< tileIndex,
        foxPosition := tileIndex,
        revealedCount := g.revealedCount + 1 }
      if tileType = 1 then some { g1 with hitBombAt := tileIndex + 1 }
      else if tileIndex = g.finishTile then some g1
      else if tileType = 2 then some { g1 with collectedReward := g1.collectedReward + reward }
      else some g1

/-- The per-reveal verification step of `completeGame`'s loop: claimed
bomb-ness must match the recomputed bitmap, and a claimed reward must
equal the recomputed `_calculateReward` amount (whose overflow revert is
the `none` case). -/
def revealOk (h : List Nat → Nat) (finalSeed gameId betAmount bitmap : Nat)
    (r : TileReveal) : Bool :=
  (if bitmap &&& 1 <<< r.tileIndex % 2 ^ 64 ≠ 0 then r.tileType == 1 else r.tileType != 1) &&
  (if r.tileType == 2 then
    match calculateRewardSol h finalSeed gameId r.tileIndex betAmount with
    | some v => r.reward == v
    | none => false
  else true)

/-- `completeGame`'s finalization: phase `Completed`; a bomb hit voids the
reward with zero payout, reaching the finish pays
`collectedReward - collectedReward * FEE_PERCENT / PRECISION`
(`FEE_PERCENT = 250`, `PRECISION = 10000`). -/
def finalizeGame (g : GameFull) : GameFull :=
  if g.hitBombAt > 0 then
    { g with phase := Phase.Completed, won := false, payout := 0, collectedReward := 0 }
  else
    let houseFee := g.collectedReward * 250 / 10000
    { g with phase := Phase.Completed, won := true, payout := g.collectedReward - houseFee }

/-- Contract `completeGame`: requires an `Active` game in a terminal
position (bomb hit or fox on the finish tile); verifies the revealed salt
against the stored commitment, recomputes the final seed, the start and
finish tiles and the bomb bitmap at the carried `nonce`, and replays every
recorded reveal through `revealOk`.  Any failed check is a revert
(`none`).  Note: no connectivity (`hasPath`) re-check appears anywhere. -/
def completeGameSol (h : List Nat → Nat) (g : GameFull) (gameId backendSalt nonce : Nat) :
    Option GameFull :=
  if g.phase ≠ Phase.Active then none
  else if ¬ (g.hitBombAt > 0 ∨ g.foxPosition = g.finishTile) then none
  else if keccak h (toBytesBE 32 backendSalt) ≠ g.backendSaltHash then none
  else
    let finalSeed := keccak h (packFinalSeed h g.pythSeed backendSalt gameId)
    if g.startTile ≠ expectedStartSol h finalSeed gameId g.gridSize then none
    else if g.finishTile ≠ expectedFinishSol h finalSeed gameId g.gridSize then none
    else
      match bombCountSol g.gridSize with
      | none => none
      | some bombCount =>
        let bitmap := calculateBombsSol h finalSeed gameId g.startTile g.finishTile
          g.gridSize bombCount nonce
        if ¬ g.reveals.all (revealOk h finalSeed gameId g.betAmount bitmap) then none
        else some (finalizeGame g)

/-! ## Trap-avoiding paths (the spec's connectivity notion, stated
independently of the BFS implementation) -/

/-- A trap-avoiding 4-directional path: `TrapFreePath w bombs a b` holds
when a sequence of orthogonally adjacent, non-trap tiles leads from `a`
to `b`. -/
inductive TrapFreePath (w : Nat) (bombs : List Nat) : Nat → Nat → Prop where
  | refl (a : Nat) (ha : a ∉ bombs) : TrapFreePath w bombs a a
  | step (a b c : Nat) (ha : a ∉ bombs) (hab : isAdjacent4Way a b w = true)
      (hbc : TrapFreePath w bombs b c) : TrapFreePath w bombs a c

/-! ## Concrete instances

Explicit hash functions and game states used to evaluate the embedding on
concrete inputs.  `keccak` is abstract, so adversarial or degenerate hash
functions are legitimate instances of the quantified statements. -/

/-- The constant-zero hash: start `= w²-w`, finish `= 0`, first attempt
draws the first `bombCount` available tiles. -/
def hZero : List Nat → Nat := fun _ => 0

/-- A hash making every 5×5 trap attempt seal the start corner: bomb
messages are 78 bytes with byte 40 = 98 (`'b'`) and the draw index at
byte 45; draws 0 and 1 pick tiles 15 and 21, the two neighbours of start
tile 20 (finish 0), for every nonce, so `hasPath` fails at all 100
attempts. -/
def hSeal5 : List Nat → Nat := fun msg =>
  if msg.length = 78 && msg.getD 40 0 == 98 then
    (if msg.getD 45 0 == 0 then 14 else if msg.getD 45 0 == 1 then 18 else 0)
  else 0

/-- A hash for the 6×6 grid: the finish draw (78-byte message with byte
40 = 102, `'f'`) selects top-row tile 5, and every bomb attempt seals
start tile 30 (draws 0 and 1 pick its neighbours 24 and 31), so the
generator exhausts its 100 attempts and returns the hardcoded fallback
`{5, 9, 15}` — which contains the finish tile 5. -/
def hSeal6 : List Nat → Nat := fun msg =>
  if msg.length = 78 && msg.getD 40 0 == 98 then
    (if msg.getD 45 0 == 0 then 23 else if msg.getD 45 0 == 1 then 28 else 0)
  else if msg.length = 78 && msg.getD 40 0 == 102 then 5
  else 0

/-- Big-endian decoding as a hash: injective on 32-byte pre-images, the
ideal-hash instance for the salt-integrity statements. -/
def hId : List Nat → Nat := fromBytesBE

/-- A 5×5 game under `hSeal5` (salt 0, pyth seed 0, game id 1): the player
stepped from start 20 onto trap 21 and the bomb hit is recorded; the
recomputed trap set `{15, 21, 3}` at nonce 0 seals the start corner. -/
def gameBombHit : GameFull :=
  { player := 1, betAmount := 100, revealedCount := 2, collectedReward := 0,
    backendSaltHash := 0, pythSeed := 0, phase := Phase.Active, won := false,
    payout := 0, gridSize := 5, startTile := 20, finishTile := 0,
    foxPosition := 21, revealedTiles := 2 ^ 20 + 2 ^ 21, hitBombAt := 22,
    reveals := [⟨21, 1, 0⟩] }

/-- A 5×5 game in mid-play under `hZero`: fox on tile 15, tiles 20 and 15
revealed. -/
def gameMidPlay : GameFull :=
  { player := 1, betAmount := 100, revealedCount := 1, collectedReward := 0,
    backendSaltHash := 0, pythSeed := 0, phase := Phase.Active, won := false,
    payout := 0, gridSize := 5, startTile := 20, finishTile := 0,
    foxPosition := 15, revealedTiles := 2 ^ 20 + 2 ^ 15, hitBombAt := 0,
    reveals := [⟨15, 0, 0⟩] }

/-- A finished 5×5 game under `hZero` (traps `{1, 2, 3}` at nonce 0,
reward tiles `{4, 5, 6, 7, 8}`): path 20 → 15 → 10 → 5 → 0, with tile 15 —
which is *not* in the derived reward-tile set — claimed as a Reward of
`_calculateReward`'s amount 1000, and reward tile 5 claimed as Empty. -/
def gameFinishReached : GameFull :=
  { player := 1, betAmount := 10000, revealedCount := 5, collectedReward := 1000,
    backendSaltHash := 0, pythSeed := 0, phase := Phase.Active, won := false,
    payout := 0, gridSize := 5, startTile := 20, finishTile := 0,
    foxPosition := 0, revealedTiles := 2 ^ 20 + 2 ^ 15 + 2 ^ 10 + 2 ^ 5 + 2 ^ 0,
    hitBombAt := 0,
    reveals := [⟨15, 2, 1000⟩, ⟨10, 0, 0⟩, ⟨5, 0, 0⟩, ⟨0, 0, 0⟩] }

/-- A terminal game whose salt commitment is `keccak hId (bytes32 5) = 5`. -/
def gameSaltDemo : GameFull :=
  { player := 1, betAmount := 100, revealedCount := 2, collectedReward := 0,
    backendSaltHash := 5, pythSeed := 0, phase := Phase.Active, won := false,
    payout := 0, gridSize := 5, startTile := 20, finishTile := 0,
    foxPosition := 21, revealedTiles := 2 ^ 20 + 2 ^ 21, hitBombAt := 22,
    reveals := [⟨21, 1, 0⟩] }

/-- A coordinator state in which player 1 has a pending salt commitment
(hash 7) and no active game. -/
def coordPending : CoordState :=
  { pendingSaltHash := fun p => if p = 1 then 7 else 0,
    playerActiveGame := fun _ => 0 }

/-- The bitmap of a bomb list: or of `2 ^ position` (used to relate the
backend's bomb set to the contract's `uint64` bitmap). -/
def natOfBombs (l : List Nat) : Nat :=
  l.foldr (fun e acc => 2 ^ e ||| acc) 0

/-- The spec's cumulative-threshold tier table, stated as written in §4.2
step 5: thresholds 3500/6000/8000/9200/9700/9950/10000 map the roll to
multipliers 0.1/0.2/0.5/1/2/5/10 in basis points. -/
def specTierBp (roll : Nat) : Nat :=
  if roll < 3500 then 1000
  else if roll < 6000 then 2000
  else if roll < 8000 then 5000
  else if roll < 9200 then 10000
  else if roll < 9700 then 20000
  else if roll < 9950 then 50000
  else 100000

/-- All 100 nonce attempts of the trap-placement loop fail the
connectivity check. -/
def allAttemptsFail (h : List Nat → Nat) (seed gameId start finish w : Nat) : Bool :=
  (List.range 100).all
    (fun nonce => !(hasPath start finish (bombAttempt h seed gameId start finish w nonce) w))

/-! ## Helper lemmas -/

theorem fromBytesBE_toBytesBE (n v : Nat) : fromBytesBE (toBytesBE n v) = v % 256 ^ n := by
  induction n generalizing v with
  | zero => simp [toBytesBE, fromBytesBE, Nat.mod_one]
  | succ n ih =>
    have h1 : fromBytesBE (toBytesBE (n + 1) v)
        = fromBytesBE (toBytesBE n (v / 256)) * 256 + v % 256 := by
      simp [toBytesBE, fromBytesBE, List.foldl_append]
    have h2 : (256 : Nat) ^ (n + 1) = 256 * 256 ^ n := by ring
    have h3 := @Nat.mod_mul 256 (256 ^ n) v
    rw [h1, ih, h2]
    omega

theorem keccak_hId (a : Nat) (ha : a < 2 ^ 256) : keccak hId (toBytesBE 32 a) = a := by
  have h32 : (256 : Nat) ^ 32 = 2 ^ 256 := by norm_num
  unfold keccak hId
  rw [fromBytesBE_toBytesBE, h32, Nat.mod_mod_of_dvd _ dvd_rfl, Nat.mod_eq_of_lt ha]

theorem swapList_length (l : List Nat) (i j : Nat) : (swapList l i j).length = l.length := by
  simp [swapList]

theorem getD_mem {l : List Nat} {n : Nat} (hn : n < l.length) (d : Nat) : l.getD n d ∈ l := by
  rw [List.getD_eq_getElem l d hn]
  exact List.getElem_mem hn

theorem mem_of_mem_swapList {l : List Nat} {i j x : Nat} (hi : i < l.length)
    (hj : j < l.length) (hx : x ∈ swapList l i j) : x ∈ l := by
  unfold swapList at hx
  rcases List.mem_or_eq_of_mem_set hx with hx' | rfl
  · rcases List.mem_or_eq_of_mem_set hx' with hx'' | rfl
    · exact hx''
    · exact getD_mem hj 0
  · exact getD_mem hi 0

theorem bombLoopJS_subset (h : List Nat → Nat) (seed gameId nonce : Nat) :
    ∀ fuel i avail, fuel + i ≤ avail.length →
      ∀ x ∈ bombLoopJS h seed gameId nonce fuel i avail, x ∈ avail := by
  intro fuel
  induction fuel with
  | zero =>
    intro i avail _ x hx
    simp [bombLoopJS] at hx
  | succ fuel ih =>
    intro i avail hlen x hx
    rw [bombLoopJS] at hx
    have hi : i < avail.length := by omega
    have hj : i + keccak h (packBomb h seed gameId nonce i) % (avail.length - i)
        < avail.length := by
      have := Nat.mod_lt (keccak h (packBomb h seed gameId nonce i))
        (y := avail.length - i) (by omega)
      omega
    rcases List.mem_cons.mp hx with rfl | hx'
    · exact mem_of_mem_swapList hi hj
        (getD_mem (by rw [swapList_length]; omega) 0)
    · exact mem_of_mem_swapList hi hj
        (ih (i + 1) _ (by rw [swapList_length]; omega) x hx')

theorem not_start_mem_availInit (total start finish : Nat) :
    start ∉ availInit total start finish := by
  simp [availInit]

theorem not_finish_mem_availInit (total start finish : Nat) :
    finish ∉ availInit total start finish := by
  simp [availInit]

theorem mem_availInit_lt {total start finish x : Nat}
    (hx : x ∈ availInit total start finish) : x < total := by
  unfold availInit at hx
  exact List.mem_range.mp (List.mem_of_mem_filter hx)

theorem length_filter_ne (t : List Nat) (v : Nat) (hn : t.Nodup) :
    t.length - 1 ≤ (t.filter (fun i => i != v)).length := by
  induction t with
  | nil => simp
  | cons a t ih =>
    have hn' : t.Nodup := (List.nodup_cons.mp hn).2
    by_cases hav : a = v
    · subst hav
      have hfa : t.filter (fun i => i != a) = t :=
        List.filter_eq_self.mpr (fun x hx => by
          have : x ≠ a := fun hxa => (List.nodup_cons.mp hn).1 (hxa ▸ hx)
          simpa using this)
      simp [hfa]
    · have : (a :: t).filter (fun i => i != v) = a :: t.filter (fun i => i != v) := by
        simp [List.filter_cons, hav]
      rw [this]
      have := ih hn'
      simp only [List.length_cons]
      omega

theorem availInit_length (total start finish : Nat) :
    total - 2 ≤ (availInit total start finish).length := by
  unfold availInit
  have hcong : (List.range total).filter (fun i => i != start && i != finish)
      = ((List.range total).filter (fun i => i != start)).filter (fun i => i != finish) := by
    rw [List.filter_filter]
    exact (List.filter_congr (fun x _ => by rw [Bool.and_comm])).symm
  rw [hcong]
  have h1 := length_filter_ne (List.range total) start (List.nodup_range total)
  have h2 := length_filter_ne ((List.range total).filter (fun i => i != start)) finish
    ((List.nodup_range total).filter _)
  rw [List.length_range] at h1
  omega

theorem availInit_length_le (total start finish : Nat) :
    (availInit total start finish).length ≤ total := by
  unfold availInit
  calc ((List.range total).filter _).length ≤ (List.range total).length :=
        List.length_filter_le _ _
    _ = total := List.length_range total

theorem placeBombsLoop_of_allFail (h : List Nat → Nat) (seed gameId start finish w : Nat) :
    ∀ fuel nonce,
      (∀ k, k < fuel →
        hasPath start finish (bombAttempt h seed gameId start finish w (nonce + k)) w = false) →
      placeBombsLoop h seed gameId start finish w fuel nonce = bombFallback := by
  intro fuel
  induction fuel with
  | zero => intro nonce _; rfl
  | succ fuel ih =>
    intro nonce hfail
    have h0 := hfail 0 (by omega)
    rw [Nat.add_zero] at h0
    rw [placeBombsLoop, h0]
    simp only [Bool.false_eq_true, if_false]
    exact ih (nonce + 1) (fun k hk => by
      have := hfail (k + 1) (by omega)
      rwa [show nonce + (k + 1) = nonce + 1 + k by omega] at this)

theorem placeBombsLoop_success (h : List Nat → Nat) (seed gameId start finish w : Nat) :
    ∀ fuel nonce,
      (∃ k, k < fuel ∧
        hasPath start finish (bombAttempt h seed gameId start finish w (nonce + k)) w = true) →
      ∃ m, placeBombsLoop h seed gameId start finish w fuel nonce =
            (bombAttempt h seed gameId start finish w m, m) ∧
          hasPath start finish (bombAttempt h seed gameId start finish w m) w = true := by
  intro fuel
  induction fuel with
  | zero =>
    rintro nonce ⟨k, hk, _⟩
    omega
  | succ fuel ih =>
    rintro nonce ⟨k, hk, hpath⟩
    by_cases hp : hasPath start finish (bombAttempt h seed gameId start finish w nonce) w = true
    · refine ⟨nonce, ?_, hp⟩
      rw [placeBombsLoop, hp]
      simp
    · have hk0 : k ≠ 0 := by
        rintro rfl
        rw [Nat.add_zero] at hpath
        exact hp hpath
      obtain ⟨m, hm, hmp⟩ := ih (nonce + 1)
        ⟨k - 1, by omega, by rwa [show nonce + 1 + (k - 1) = nonce + k by omega]⟩
      refine ⟨m, ?_, hmp⟩
      rw [placeBombsLoop]
      simp only [Bool.not_eq_true] at hp
      rw [hp]
      simpa using hm

theorem natOfBombs_nil : natOfBombs [] = 0 := rfl

theorem natOfBombs_cons (e : Nat) (l : List Nat) :
    natOfBombs (e :: l) = 2 ^ e ||| natOfBombs l := rfl

theorem testBit_natOfBombs (l : List Nat) (n : Nat) :
    (natOfBombs l).testBit n = true ↔ n ∈ l := by
  induction l with
  | nil => simp [natOfBombs_nil]
  | cons e l ih =>
    rw [natOfBombs_cons, Nat.testBit_lor]
    simp only [Bool.or_eq_true, ih, List.mem_cons, Nat.testBit_two_pow]
    constructor
    · rintro (he | hl)
      · exact Or.inl (by simpa [eq_comm] using he)
      · exact Or.inr hl
    · rintro (rfl | hl)
      · exact Or.inl (by simp)
      · exact Or.inr hl

theorem bombLoopSol_eq_natOfBombs (h : List Nat → Nat) (seed gameId nonce : Nat) :
    ∀ fuel i avail bitmap,
      (∀ x ∈ avail, x < 64) → fuel + i ≤ avail.length → avail.length ≤ 255 →
      bombLoopSol h seed gameId nonce fuel i avail bitmap =
        bitmap ||| natOfBombs (bombLoopJS h seed gameId nonce fuel i avail) := by
  intro fuel
  induction fuel with
  | zero =>
    intro i avail bitmap _ _ _
    simp [bombLoopSol, bombLoopJS, natOfBombs_nil]
  | succ fuel ih =>
    intro i avail bitmap hlt hlen h255
    have hrem : (avail.length - i) % 256 = avail.length - i :=
      Nat.mod_eq_of_lt (by omega)
    rw [bombLoopSol, bombLoopJS]
    simp only [hrem]
    have hi : i < avail.length := by omega
    have hj : i + keccak h (packBomb h seed gameId nonce i) % (avail.length - i)
        < avail.length := by
      have := Nat.mod_lt (keccak h (packBomb h seed gameId nonce i))
        (y := avail.length - i) (by omega)
      omega
    set avail' := swapList avail i
      (i + keccak h (packBomb h seed gameId nonce i) % (avail.length - i)) with havail'
    have hlen' : avail'.length = avail.length := swapList_length _ _ _
    have hlt' : ∀ x ∈ avail', x < 64 :=
      fun x hx => hlt x (mem_of_mem_swapList hi hj hx)
    have he : avail'.getD i 0 < 64 :=
      hlt' _ (getD_mem (by omega) 0)
    have hpow : 2 ^ avail'.getD i 0 % 2 ^ 64 = 2 ^ avail'.getD i 0 :=
      Nat.mod_eq_of_lt (Nat.pow_lt_pow_right (by norm_num) he)
    rw [ih (i + 1) avail' _ hlt' (by omega) (by omega), natOfBombs_cons, hpow,
      Nat.lor_assoc]

/-- Exact acceptance conditions of `completeGame`: phase, terminal
position, salt integrity, start/finish recomputation, a valid grid size,
and per-reveal consistency — and nothing else. -/
theorem completeGameSol_isSome_iff (h : List Nat → Nat) (g : GameFull)
    (gameId backendSalt nonce : Nat) :
    (completeGameSol h g gameId backendSalt nonce).isSome = true ↔
      (g.phase = Phase.Active ∧
       (g.hitBombAt > 0 ∨ g.foxPosition = g.finishTile) ∧
       keccak h (toBytesBE 32 backendSalt) = g.backendSaltHash ∧
       g.startTile = expectedStartSol h
         (keccak h (packFinalSeed h g.pythSeed backendSalt gameId)) gameId g.gridSize ∧
       g.finishTile = expectedFinishSol h
         (keccak h (packFinalSeed h g.pythSeed backendSalt gameId)) gameId g.gridSize ∧
       (bombCountSol g.gridSize).isSome = true ∧
       ∀ r ∈ g.reveals,
         revealOk h (keccak h (packFinalSeed h g.pythSeed backendSalt gameId)) gameId
           g.betAmount
           (calculateBombsSol h (keccak h (packFinalSeed h g.pythSeed backendSalt gameId))
             gameId g.startTile g.finishTile g.gridSize
             ((bombCountSol g.gridSize).getD 0) nonce) r = true) := by
  rcases hbc : bombCountSol g.gridSize with _ | bc <;>
    simp only [completeGameSol, hbc] <;>
    split_ifs with h1 h2 h3 h4 h5 <;>
    simp_all [List.all_eq_true]

/-- The first tile of a trap-avoiding path is itself trap-free. -/
theorem trapFreePath_head_not_bomb {w : Nat} {bombs : List Nat} {a c : Nat}
    (hp : TrapFreePath w bombs a c) : a ∉ bombs := by
  cases hp with
  | refl _ ha => exact ha
  | step _ b _ ha _ _ => exact ha

/-! ## Claim theorems -/

/-- C4 (counterexample): a player identity with a pending salt commitment
(hash 7) and no active game is **not** rejected on a second commit — the
commit succeeds and replaces the pending commitment with the new hash 9. -/
theorem commitSaltHash_overwrites_pending :
    coordPending.pendingSaltHash 1 = 7 ∧
    coordPending.playerActiveGame 1 = 0 ∧
    (commitSaltHashSol coordPending 1 9).map (fun s => s.pendingSaltHash 1) = some 9 :=
  ⟨rfl, rfl, rfl⟩

/-- C4 (amended): `commitSaltHash` rejects a commit only while the player
has an **active game** (or a zero player address / zero hash); with no
active game it accepts and overwrites any pending commitment with the new
salt hash. -/
theorem commitSaltHash_policy (s : CoordState) (player saltHash : Nat) :
    (s.playerActiveGame player ≠ 0 → commitSaltHashSol s player saltHash = none) ∧
    (player ≠ 0 → saltHash ≠ 0 → s.playerActiveGame player = 0 →
      (commitSaltHashSol s player saltHash).map (fun s' => s'.pendingSaltHash player) =
        some saltHash) := by
  constructor
  · intro hact
    unfold commitSaltHashSol
    split_ifs <;> first | rfl | contradiction
  · intro hp hs hact
    simp [commitSaltHashSol, hp, hs, hact]

/-- Witness for `commitSaltHash_policy` at the concrete pending state. -/
theorem commitSaltHash_policy_witness :
    (commitSaltHashSol coordPending 1 9).map (fun s' => s'.pendingSaltHash 1) = some 9 :=
  (commitSaltHash_policy coordPending 1 9).2 (by decide) (by decide) rfl

set_option maxHeartbeats 1000000 in
/-- C9: during an `Active` game, a move request targeting a tile that is
not 4-directionally adjacent to the current position, or already revealed,
or in a strictly earlier (backward) row, reverts (`none`): no state field
changes. -/
theorem revealTile_rejects_illegal_moves (g : GameFull)
    (player tileIndex tileType reward : Nat)
    (hactive : g.phase = Phase.Active)
    (hbad : isAdjacent4WaySol g.foxPosition tileIndex g.gridSize = false ∨
            g.revealedTiles &&& 1 <<< tileIndex ≠ 0 ∨
            tileIndex / g.gridSize > g.foxPosition / g.gridSize) :
    revealTileSol g player tileIndex tileType reward = none := by
  unfold revealTileSol
  split_ifs <;> try rfl
  all_goals rcases hbad with hb | hb | hb <;> simp_all

/-- Witness for `revealTile_rejects_illegal_moves`: tile 5 is not
adjacent to the fox position 15 of the mid-play game. -/
theorem revealTile_rejects_illegal_moves_witness :
    revealTileSol gameMidPlay 1 5 0 0 = none :=
  revealTile_rejects_illegal_moves gameMidPlay 1 5 0 0 rfl (Or.inl (by decide))

/-- C7: the backend selects the start tile as the bottom-row tile at index
`hash(seed, gameId, "start", VERSION) mod gridWidth` (i.e. tile
`w²-w + hash mod w`) and the finish tile as the top-row tile at index
`hash(seed, gameId, "finish", VERSION) mod gridWidth`; `completeGame`'s
recomputed expected tiles agree with this selection. -/
theorem startFinish_selection (h : List Nat → Nat) (seed gameId w : Nat) (hw : 0 < w) :
    selectStartAndFinish h seed gameId w =
      (w * w - w + keccak h (packStart h seed gameId) % w,
       keccak h (packFinish h seed gameId) % w) ∧
    expectedStartSol h seed gameId w
      = w * w - w + keccak h (packStart h seed gameId) % w ∧
    expectedFinishSol h seed gameId w = keccak h (packFinish h seed gameId) % w := by
  refine ⟨?_, rfl, rfl⟩
  unfold selectStartAndFinish getStartTiles getFinishTiles
  have hls : ((List.range w).map (fun i => w * w - w + i)).length = w := by simp
  have hks : keccak h (packStart h seed gameId) % w < w :=
    Nat.mod_lt _ hw
  have hkf : keccak h (packFinish h seed gameId) % w < w :=
    Nat.mod_lt _ hw
  simp only [hls, List.length_range]
  rw [List.getD_eq_getElem _ _ (by simp [hks]), List.getD_eq_getElem _ _ (by simp [hkf])]
  simp [hks, hkf]

/-- Witness for `startFinish_selection` on the 5×5 grid with the
constant-zero hash. -/
theorem startFinish_selection_witness :
    selectStartAndFinish hZero 0 1 5 =
      (5 * 5 - 5 + keccak hZero (packStart hZero 0 1) % 5,
       keccak hZero (packFinish hZero 0 1) % 5) ∧
    expectedStartSol hZero 0 1 5
      = 5 * 5 - 5 + keccak hZero (packStart hZero 0 1) % 5 ∧
    expectedFinishSol hZero 0 1 5 = keccak hZero (packFinish hZero 0 1) % 5 :=
  startFinish_selection hZero 0 1 5 (by norm_num)

/-- C2 (counterexample): under `hSeal5` every one of the 100 nonce
attempts fails the connectivity check, yet `placeBombsWithNonce` still
returns a map — the hardcoded fallback trap set `{5, 9, 15}` with
nonce 0 — instead of failing fatally. -/
theorem placeBombs_fallback_despite_exhaustion :
    allAttemptsFail hSeal5 0 1 20 0 5 = true ∧
    placeBombsWithNonce hSeal5 0 1 20 0 5 = ([5, 9, 15], 0) := by
  exact ⟨by decide, by decide⟩

/-- C2 (amended): if all 100 nonce attempts fail the connectivity check,
the map generator does not raise an error: it returns the hardcoded,
unverified fallback trap set `{5, 9, 15}` with nonce 0. -/
theorem placeBombs_exhaustion_returns_fallback (h : List Nat → Nat)
    (seed gameId start finish w : Nat)
    (hfail : ∀ k, k < 100 →
      hasPath start finish (bombAttempt h seed gameId start finish w k) w = false) :
    placeBombsWithNonce h seed gameId start finish w = bombFallback := by
  unfold placeBombsWithNonce
  exact placeBombsLoop_of_allFail h seed gameId start finish w 100 0
    (fun k hk => by simpa using hfail k hk)

set_option maxRecDepth 4000 in
/-- Witness for `placeBombs_exhaustion_returns_fallback` under `hSeal5`. -/
theorem placeBombs_exhaustion_returns_fallback_witness :
    placeBombsWithNonce hSeal5 0 1 20 0 5 = bombFallback :=
  placeBombs_exhaustion_returns_fallback hSeal5 0 1 20 0 5 (by decide)

/-- C3 (counterexample): under `hSeal6` on the 6×6 grid the generator
selects start 30 and finish 5, exhausts its attempts, and returns the
fallback trap set `{5, 9, 15}` — which contains the finish tile, so the
generated map violates `finishTile ∉ trapSet`. -/
theorem generated_map_violates_invariants :
    selectStartAndFinish hSeal6 0 1 6 = (30, 5) ∧
    placeBombsWithNonce hSeal6 0 1 30 5 6 = ([5, 9, 15], 0) ∧
    (selectStartAndFinish hSeal6 0 1 6).2 ∈ (placeBombsWithNonce hSeal6 0 1 30 5 6).1 := by
  exact ⟨by decide, by decide, by decide⟩

/-- C3 (amended): whenever some nonce below the 100-attempt bound passes
the connectivity check, the generated trap set excludes the start and
finish tiles and admits a trap-avoiding 4-directional path between them;
only the fallback map returned on exhaustion can violate these
invariants. -/
theorem generated_map_invariants_of_success (h : List Nat → Nat)
    (seed gameId start finish w : Nat)
    (hw : w = 5 ∨ w = 6 ∨ w = 7)
    (hsucc : ∃ n, n < 100 ∧
      hasPath start finish (bombAttempt h seed gameId start finish w n) w = true) :
    start ∉ (placeBombsWithNonce h seed gameId start finish w).1 ∧
    finish ∉ (placeBombsWithNonce h seed gameId start finish w).1 ∧
    hasPath start finish (placeBombsWithNonce h seed gameId start finish w).1 w = true := by
  obtain ⟨n, hn, hp⟩ := hsucc
  obtain ⟨m, hm, hmp⟩ := placeBombsLoop_success h seed gameId start finish w 100 0
    ⟨n, hn, by simpa using hp⟩
  unfold placeBombsWithNonce
  rw [hm]
  have hsub : ∀ x ∈ bombAttempt h seed gameId start finish w m,
      x ∈ availInit (gridSizeCfg w) start finish := by
    intro x hx
    unfold bombAttempt at hx
    refine bombLoopJS_subset h seed gameId m (bombCountCfg w) 0 _ ?_ x hx
    have h1 := availInit_length (gridSizeCfg w) start finish
    rcases hw with rfl | rfl | rfl <;>
      simp only [bombCountCfg, gridSizeCfg] at h1 ⊢ <;> norm_num at h1 ⊢ <;> omega
  exact ⟨fun hx => not_start_mem_availInit _ _ _ (hsub _ hx),
         fun hx => not_finish_mem_availInit _ _ _ (hsub _ hx), hmp⟩

/-- Witness for `generated_map_invariants_of_success`: under the
constant-zero hash the very first attempt (traps `{1, 2, 3}`) passes. -/
theorem generated_map_invariants_of_success_witness :
    20 ∉ (placeBombsWithNonce hZero 0 1 20 0 5).1 ∧
    0 ∉ (placeBombsWithNonce hZero 0 1 20 0 5).1 ∧
    hasPath 20 0 (placeBombsWithNonce hZero 0 1 20 0 5).1 5 = true :=
  generated_map_invariants_of_success hZero 0 1 20 0 5 (Or.inl rfl)
    ⟨0, by norm_num, by decide⟩

/-- C6: for every hash, final seed, game id, start/finish tiles, valid
grid width and nonce, the trap set drawn by the backend's seeded partial
Fisher-Yates shuffle at that nonce equals (as a set of positions) the
bomb bitmap computed by the contract's `_calculateBombs` with the same
inputs and nonce, with the contract's `_getBombCount` agreeing with the
backend's configured bomb count. -/
theorem trapSet_backend_contract_agree (h : List Nat → Nat)
    (seed gameId start finish w nonce n : Nat)
    (hw : w = 5 ∨ w = 6 ∨ w = 7) (hsf : start ≠ finish)
    (hs : start < w * w) (hf : finish < w * w) :
    (n ∈ bombAttempt h seed gameId start finish w nonce ↔
      Nat.testBit (calculateBombsSol h seed gameId start finish w (bombCountCfg w) nonce) n
        = true) ∧
    bombCountSol w = some (bombCountCfg w) := by
  have htot : gridSizeCfg w = w * w := by rcases hw with rfl | rfl | rfl <;> rfl
  constructor
  · unfold bombAttempt calculateBombsSol
    rw [htot]
    rw [bombLoopSol_eq_natOfBombs h seed gameId nonce (bombCountCfg w) 0
      (availInit (w * w) start finish) 0
      (fun x hx => by
        have := mem_availInit_lt hx
        rcases hw with rfl | rfl | rfl <;> omega)
      (by
        have h1 := availInit_length (w * w) start finish
        rcases hw with rfl | rfl | rfl <;> norm_num [bombCountCfg] at h1 ⊢ <;> omega)
      (by
        have h2 := availInit_length_le (w * w) start finish
        rcases hw with rfl | rfl | rfl <;> omega)]
    rw [Nat.zero_or]
    exact (testBit_natOfBombs _ _).symm
  · rcases hw with rfl | rfl | rfl <;> rfl

/-- Witness for `trapSet_backend_contract_agree` on the 5×5 grid
(traps `{1, 2, 3}` under the constant-zero hash, position 1). -/
theorem trapSet_backend_contract_agree_witness :
    ((1 : Nat) ∈ bombAttempt hZero 0 1 20 0 5 0 ↔
      Nat.testBit (calculateBombsSol hZero 0 1 20 0 5 (bombCountCfg 5) 0) 1 = true) ∧
    bombCountSol 5 = some (bombCountCfg 5) :=
  trapSet_backend_contract_agree hZero 0 1 20 0 5 0 1 (Or.inl rfl) (by norm_num)
    (by norm_num) (by norm_num)

/-- C5: `completeGame` accepts only if the hash of the revealed salt
equals the stored salt commitment; under an injective (ideal) hash, any
revealed salt different from the committed one makes it revert,
regardless of the rest of the claim log. -/
theorem salt_integrity (h : List Nat → Nat)
    (hinj : ∀ a b : Nat, a < 2 ^ 256 → b < 2 ^ 256 →
      keccak h (toBytesBE 32 a) = keccak h (toBytesBE 32 b) → a = b)
    (g : GameFull) (gameId nonce committedSalt revealedSalt : Nat)
    (hcs : committedSalt < 2 ^ 256) (hrs : revealedSalt < 2 ^ 256)
    (hcommit : g.backendSaltHash = keccak h (toBytesBE 32 committedSalt)) :
    ((completeGameSol h g gameId revealedSalt nonce).isSome = true →
      keccak h (toBytesBE 32 revealedSalt) = g.backendSaltHash) ∧
    (revealedSalt ≠ committedSalt →
      completeGameSol h g gameId revealedSalt nonce = none) := by
  constructor
  · intro hacc
    exact ((completeGameSol_isSome_iff h g gameId revealedSalt nonce).mp hacc).2.2.1
  · intro hne
    rw [← Option.not_isSome_iff_eq_none]
    intro hacc
    have hsalt := ((completeGameSol_isSome_iff h g gameId revealedSalt nonce).mp
      (by simpa using hacc)).2.2.1
    rw [hcommit] at hsalt
    exact hne (hinj _ _ hrs hcs hsalt)

/-- Witness for `salt_integrity`: under the injective decoding hash, the
game committed to salt 5 and revealing salt 6 reverts. -/
theorem salt_integrity_witness :
    completeGameSol hId gameSaltDemo 1 6 0 = none :=
  (salt_integrity hId
    (fun a b ha hb heq => by rwa [keccak_hId a ha, keccak_hId b hb] at heq)
    gameSaltDemo 1 0 5 6 (by norm_num) (by norm_num) (by decide)).2 (by decide)

/-- C1 (counterexample): `completeGame` accepts the bomb-hit game under
`hSeal5` even though its recomputed trap set `{3, 15, 21}` (nonce 0)
disconnects start 20 from finish 0: the BFS checker refutes connectivity
and no trap-avoiding 4-directional path exists, yet the game is
verified — `completeGame` never re-checks connectivity. -/
theorem completeGame_accepts_disconnected_map :
    (completeGameSol hSeal5 gameBombHit 1 0 0).isSome = true ∧
    calculateBombsSol hSeal5 0 1 20 0 5 3 0 = 2 ^ 3 + 2 ^ 15 + 2 ^ 21 ∧
    hasPath 20 0 [3, 15, 21] 5 = false ∧
    ¬ TrapFreePath 5 [3, 15, 21] 20 0 := by
  refine ⟨by decide, by decide, by decide, ?_⟩
  intro hp
  cases hp with
  | step a b c ha hab hbc =>
    have hb : b = 15 ∨ b = 21 := by
      simpa [isAdjacent4Way, getAdjacent4Way] using hab
    have hbnb := trapFreePath_head_not_bomb hbc
    rcases hb with rfl | rfl <;> simp at hbnb

/-- C1 (amended): `completeGame` accepts exactly when the game is Active
and terminal, the revealed salt hashes to the stored commitment, the
start/finish tiles match their recomputation from the final seed, the
grid size is valid, and every recorded reveal is consistent with the
recomputed trap bitmap and reward amounts — connectivity of the
recomputed trap set is **not** among the verified conditions. -/
theorem completeGame_verification_conditions (h : List Nat → Nat) (g : GameFull)
    (gameId backendSalt nonce : Nat) :
    (completeGameSol h g gameId backendSalt nonce).isSome = true ↔
      (g.phase = Phase.Active ∧
       (g.hitBombAt > 0 ∨ g.foxPosition = g.finishTile) ∧
       keccak h (toBytesBE 32 backendSalt) = g.backendSaltHash ∧
       g.startTile = expectedStartSol h
         (keccak h (packFinalSeed h g.pythSeed backendSalt gameId)) gameId g.gridSize ∧
       g.finishTile = expectedFinishSol h
         (keccak h (packFinalSeed h g.pythSeed backendSalt gameId)) gameId g.gridSize ∧
       (bombCountSol g.gridSize).isSome = true ∧
       ∀ r ∈ g.reveals,
         revealOk h (keccak h (packFinalSeed h g.pythSeed backendSalt gameId)) gameId
           g.betAmount
           (calculateBombsSol h (keccak h (packFinalSeed h g.pythSeed backendSalt gameId))
             gameId g.startTile g.finishTile g.gridSize
             ((bombCountSol g.gridSize).getD 0) nonce) r = true) :=
  completeGameSol_isSome_iff h g gameId backendSalt nonce

/-- C10: `completeGame` verifies a claimed Reward reveal only through the
recomputed per-tile reward amount, never through reward-set membership:
a claim log containing a non-trap tile outside the backend's derived
reward-tile set, claimed as a Reward with the `_calculateReward` amount,
is accepted whenever the remaining checks pass. -/
theorem completeGame_accepts_unchecked_reward_claim (h : List Nat → Nat)
    (g : GameFull) (gameId salt nonce : Nat) (r : TileReveal)
    (hphase : g.phase = Phase.Active)
    (hterm : g.hitBombAt > 0 ∨ g.foxPosition = g.finishTile)
    (hsalt : keccak h (toBytesBE 32 salt) = g.backendSaltHash)
    (hstart : g.startTile = expectedStartSol h
      (keccak h (packFinalSeed h g.pythSeed salt gameId)) gameId g.gridSize)
    (hfin : g.finishTile = expectedFinishSol h
      (keccak h (packFinalSeed h g.pythSeed salt gameId)) gameId g.gridSize)
    (hbc : (bombCountSol g.gridSize).isSome = true)
    (hrev : ∀ r' ∈ g.reveals,
      revealOk h (keccak h (packFinalSeed h g.pythSeed salt gameId)) gameId g.betAmount
        (calculateBombsSol h (keccak h (packFinalSeed h g.pythSeed salt gameId)) gameId
          g.startTile g.finishTile g.gridSize ((bombCountSol g.gridSize).getD 0) nonce)
        r' = true)
    (hr : r ∈ g.reveals) (hrt : r.tileType = 2)
    (hnb : calculateBombsSol h (keccak h (packFinalSeed h g.pythSeed salt gameId)) gameId
      g.startTile g.finishTile g.gridSize ((bombCountSol g.gridSize).getD 0) nonce &&&
      1 <<< r.tileIndex % 2 ^ 64 = 0)
    (hnr : isRewardTile h (keccak h (packFinalSeed h g.pythSeed salt gameId)) gameId
      (bombAttempt h (keccak h (packFinalSeed h g.pythSeed salt gameId)) gameId
        g.startTile g.finishTile g.gridSize nonce)
      g.startTile g.finishTile r.tileIndex g.gridSize = false) :
    (completeGameSol h g gameId salt nonce).isSome = true :=
  (completeGameSol_isSome_iff h g gameId salt nonce).mpr
    ⟨hphase, hterm, hsalt, hstart, hfin, hbc, hrev⟩

/-- Witness for `completeGame_accepts_unchecked_reward_claim`: the
finished game claims tile 15 — not a derived reward tile — as a Reward of
1000 and is accepted. -/
theorem completeGame_accepts_unchecked_reward_claim_witness :
    (completeGameSol hZero gameFinishReached 1 0 0).isSome = true :=
  completeGame_accepts_unchecked_reward_claim hZero gameFinishReached 1 0 0 ⟨15, 2, 1000⟩
    rfl (by decide) (by decide) (by decide) (by decide) (by decide) (by decide)
    (by decide) (by decide) (by decide) (by decide)

/-- C8: for every reward tile, the reward is determined by
`roll = hash(seed, gameId, "reward", tileIndex, VERSION) mod 10000`
mapped through the cumulative thresholds 3500/6000/8000/9200/9700/9950/
10000 to basis points 1000/2000/5000/10000/20000/50000/100000, the
amount being `betAmount * tierBp / 10000` in exact integer arithmetic;
the contract's `_calculateReward` computes the same amount. -/
theorem reward_tier_mapping (h : List Nat → Nat) (seed gameId tileIndex betAmount : Nat)
    (hbet : betAmount * 100000 < 2 ^ 256) :
    getTileReward h seed gameId betAmount tileIndex =
      betAmount * specTierBp (keccak h (packReward h seed gameId tileIndex) % 10000) / 10000 ∧
    calculateRewardSol h seed gameId tileIndex betAmount =
      some (getTileReward h seed gameId betAmount tileIndex) := by
  have hmul : ∀ t : Nat, t ≤ 100000 → betAmount * t < 2 ^ 256 := fun t ht =>
    Nat.lt_of_le_of_lt (Nat.mul_le_mul_left _ ht) hbet
  set roll := keccak h (packReward h seed gameId tileIndex) % 10000 with hrolldef
  have hr : roll < 10000 := Nat.mod_lt _ (by norm_num)
  unfold getTileReward calculateRewardSol specTierBp
  rw [← hrolldef]
  by_cases h1 : roll < 3500
  · have hg := hmul 1000 (by norm_num)
    norm_num at hg
    simp [tierThresholds, rewardTiers, List.find?, h1, hg]
  · by_cases h2 : roll < 6000
    · have hg := hmul 2000 (by norm_num)
      norm_num at hg
      simp [tierThresholds, rewardTiers, List.find?, h1, h2, hg]
    · by_cases h3 : roll < 8000
      · have hg := hmul 5000 (by norm_num)
        norm_num at hg
        simp [tierThresholds, rewardTiers, List.find?, h1, h2, h3, hg]
      · by_cases h4 : roll < 9200
        · have hg := hmul 10000 (by norm_num)
          norm_num at hg
          simp [tierThresholds, rewardTiers, List.find?, h1, h2, h3, h4, hg]
        · by_cases h5 : roll < 9700
          · have hg := hmul 20000 (by norm_num)
            norm_num at hg
            simp [tierThresholds, rewardTiers, List.find?, h1, h2, h3, h4, h5, hg]
          · by_cases h6 : roll < 9950
            · have hg := hmul 50000 (by norm_num)
              norm_num at hg
              simp [tierThresholds, rewardTiers, List.find?, h1, h2, h3, h4, h5, h6, hg]
            · have hg := hmul 100000 (by norm_num)
              norm_num at hg
              simp [tierThresholds, rewardTiers, List.find?, h1, h2, h3, h4, h5, h6, hr, hg]

/-- Witness for `reward_tier_mapping` with bet 10000 on tile 15 under the
constant-zero hash (roll 0, tier 0.1×, reward 1000). -/
theorem reward_tier_mapping_witness :
    getTileReward hZero 0 1 10000 15 =
      10000 * specTierBp (keccak hZero (packReward hZero 0 1 15) % 10000) / 10000 ∧
    calculateRewardSol hZero 0 1 15 10000 = some (getTileReward hZero 0 1 10000 15) :=
  reward_tier_mapping hZero 0 1 15 10000 (by norm_num)
